import Mathlib

/-!
Verification of the recurrent-computation nodes of CNTK
(`Source/../RecurrentNodes.h`): the delayed-value nodes
(`PastValueNode` / `FutureValueNode`, sharing `DelayedValueNodeBase`) and the
deprecated `LSTMNode`.

Matrix elements (`ElemType`, `float`/`double` in the source) are modelled as
rationals: every operation the verified claims touch is an exact copy, a
constant fill, or an elementwise addition, so the structural content of the
claims is unchanged by this choice.
-/

set_option autoImplicit false

/-- Matrix elements. The source instantiates the node templates at `float`
and `double`; the claims below only use copies, constant fills and `+=`. -/
abbrev ElemType := ℚ

/-- The per-(stream, frame) boundary-flag bitset `MinibatchPackingFlags`
(external header `Basics.h`/`Sequences.h`): bits `SequenceStart`,
`SequenceEnd`, `NoFeature`, `NoLabel`; `NoInput = NoFeature | NoLabel`.
The bitset is modelled as one boolean per bit; `&`-tests, `|` and `&` masks
on the underlying integers become `overlaps`, `union` and `inter`. -/
structure MinibatchFlags where
  seqStart : Bool
  seqEnd : Bool
  noFeature : Bool
  noLabel : Bool
deriving DecidableEq, Repr, Fintype

namespace MinibatchFlags

/-- Bitwise or of two flag sets (`a | b`). -/
def union (a b : MinibatchFlags) : MinibatchFlags :=
  ⟨a.seqStart || b.seqStart, a.seqEnd || b.seqEnd,
   a.noFeature || b.noFeature, a.noLabel || b.noLabel⟩

/-- Bitwise and of two flag sets (`a & b`). -/
def inter (a b : MinibatchFlags) : MinibatchFlags :=
  ⟨a.seqStart && b.seqStart, a.seqEnd && b.seqEnd,
   a.noFeature && b.noFeature, a.noLabel && b.noLabel⟩

/-- The test `(a & b) != 0` used throughout the source (`MBLayout::Is` and
the raw casts such as `(int)colBoundaryFlags(i,0) & (int)SequenceStart`). -/
def overlaps (a b : MinibatchFlags) : Bool :=
  (a.seqStart && b.seqStart) || (a.seqEnd && b.seqEnd) ||
  (a.noFeature && b.noFeature) || (a.noLabel && b.noLabel)

/-- `b`'s bits are all present in `a` (`(a & b) == b`). -/
def contains (a b : MinibatchFlags) : Bool :=
  (!b.seqStart || a.seqStart) && (!b.seqEnd || a.seqEnd) &&
  (!b.noFeature || a.noFeature) && (!b.noLabel || a.noLabel)

end MinibatchFlags

/-- `MinibatchPackingFlags::None`. -/
def flagNone : MinibatchFlags := ⟨false, false, false, false⟩

/-- `MinibatchPackingFlags::SequenceStart`. -/
def sequenceStart : MinibatchFlags := ⟨true, false, false, false⟩

/-- `MinibatchPackingFlags::SequenceEnd`. -/
def sequenceEnd : MinibatchFlags := ⟨false, true, false, false⟩

/-- `MinibatchPackingFlags::NoFeature`. -/
def noFeatureFlag : MinibatchFlags := ⟨false, false, true, false⟩

/-- `MinibatchPackingFlags::NoLabel`. -/
def noLabelFlag : MinibatchFlags := ⟨false, false, false, true⟩

/-- `MinibatchPackingFlags::NoInput = NoFeature | NoLabel`. -/
def noInputFlag : MinibatchFlags := noFeatureFlag.union noLabelFlag

/-- A dense matrix (`Matrix<ElemType>`): a row and column count plus an entry
function `entry r c`.  The entry function is total; cells outside
`nrows × ncols` are junk and never constrained. -/
structure MatQ where
  nrows : Nat
  ncols : Nat
  entry : Nat → Nat → ElemType

/-- `Matrix::HasNoElements`. -/
def MatQ.hasNoElements (m : MatQ) : Bool := m.nrows == 0 || m.ncols == 0

/-- Elementwise `to += frm` (dimensions of the destination kept). -/
def MatQ.addMat (a b : MatQ) : MatQ :=
  { a with entry := fun r c => a.entry r c + b.entry r c }

/-- An `r × c` matrix filled with a constant (`Resize` + `SetValue(v)`). -/
def matConst (r c : Nat) (v : ElemType) : MatQ := ⟨r, c, fun _ _ => v⟩

/-- An `r × c` zero matrix (`Resize` + `SetValue(0)`). -/
def matZero (r c : Nat) : MatQ := matConst r c 0

/-- The per-minibatch `MBLayout`: number of parallel streams, number of
frames, the per-(stream, frame) boundary flags (`m_sentenceBoundaryFlags`)
and the per-frame summary flags (`m_minibatchPackingFlags`, returned as the
second component of `MBLayout::GetFrame`). -/
structure MBLayoutM where
  numStreams : Nat
  numFrames : Nat
  streamFlags : Nat → Nat → MinibatchFlags
  framePacking : Nat → MinibatchFlags

/-- Modelled from the spec: the `MBLayout` invariant that the per-frame
summary flag word accumulates (at least) the bits of every stream's flag in
that frame, maintained by `MBLayout::Set` (external to `src/`). -/
def MBLayoutM.wf (L : MBLayoutM) : Prop :=
  ∀ j i, j < L.numStreams → i < L.numFrames →
    (L.framePacking i).contains (L.streamFlags j i) = true

/-! ## DelayedValueNodeBase::EvaluateThisNodeSRP (RecurrentNodes.h 209-259)

The template parameters `direction` (−1 for `PastValueNode`, +1 for
`FutureValueNode`) and `SequenceStart_or_End` (the boundary marker flag)
are explicit arguments.  `frameRange` contributes `t = frameRange.t()` and
`mNbr = frameRange.NumCols()` (the number of parallel streams). -/

/-- The value `EvaluateThisNodeSRP` writes into row `r` of the output column
of stream `i` at frame `t`: the configured initial activation when the
frame's summary flag and the stream's shifted flag both carry the boundary
marker, otherwise a copy from the delayed column `d + i` of either the
current input (in range) or the carried-over `delayedActivation`. -/
def srpWrittenEntry (direction : Int) (marker : MinibatchFlags)
    (t mNbr : Nat) (timeStep : Int)
    (delayedActivation inputFunctionValues : MatQ)
    (initStateValue : ElemType)
    (colBoundaryFlags : Nat → MinibatchFlags)
    (minibatchPackingFlags : MinibatchFlags)
    (i r : Nat) : ElemType :=
  let delayedIndex : Int := ((t : Int) + direction * timeStep) * (mNbr : Int)
  let outOfRange : Prop :=
    delayedIndex < 0 ∨ (inputFunctionValues.ncols : Int) ≤ delayedIndex
  let d : Int :=
    if delayedIndex < 0 ∨ (inputFunctionValues.ncols : Int) ≤ delayedIndex then
      Int.emod delayedIndex (delayedActivation.ncols : Int)
    else delayedIndex
  if minibatchPackingFlags.overlaps marker = true ∧
      (colBoundaryFlags i).overlaps marker = true then
    initStateValue
  else if outOfRange then delayedActivation.entry r (d + i).toNat
  else inputFunctionValues.entry r (d + i).toNat

/-- `DelayedValueNodeBase::EvaluateThisNodeSRP`: writes frame `t`'s `mNbr`
output columns of `functionValues` (after resizing it to the input's
dimensions when they differ), leaving every other column untouched.
When the frame's summary flag carries the boundary marker the frame is
processed stream by stream (boundary streams get the initial-activation
constant); otherwise the whole frame is copied in one slice — both cases
write exactly `srpWrittenEntry`. -/
def evaluateThisNodeSRP (direction : Int) (marker : MinibatchFlags)
    (t mNbr : Nat) (timeStep : Int)
    (functionValues delayedActivation inputFunctionValues : MatQ)
    (initStateValue : ElemType)
    (colBoundaryFlags : Nat → MinibatchFlags)
    (minibatchPackingFlags : MinibatchFlags) : MatQ :=
  let fv : MatQ :=
    if functionValues.nrows ≠ inputFunctionValues.nrows ∨
        functionValues.ncols ≠ inputFunctionValues.ncols then
      { nrows := inputFunctionValues.nrows, ncols := inputFunctionValues.ncols,
        entry := functionValues.entry }
    else functionValues
  { fv with entry := fun r c =>
      if t * mNbr ≤ c ∧ c < t * mNbr + mNbr then
        (srpWrittenEntry direction marker t mNbr timeStep delayedActivation
          inputFunctionValues initStateValue colBoundaryFlags
          minibatchPackingFlags (c - t * mNbr) r)
      else fv.entry r c }

/-! ## DelayedValueNodeBase::ComputeInputPartialSRP (RecurrentNodes.h 170-201) -/

/-- `DelayedValueNodeBase::ComputeInputPartialSRP`: when the delayed frame
index `t + direction*timeStep` lies in `[0, gradientValues.ncols)` (the
check the source performs), adds frame `t`'s gradient columns into the
input gradient's columns of the delayed frame — stream by stream, skipping
streams whose shifted flag carries the boundary marker or `NoFeature`, when
the frame's summary flag carries one of those bits; in one whole-frame
slice otherwise.  Out of range, the input gradient is returned untouched. -/
def computeInputPartialSRP (direction : Int) (marker : MinibatchFlags)
    (t mNbr : Nat) (timeStep : Int)
    (inputGradientValues gradientValues : MatQ)
    (colBoundaryFlags : Nat → MinibatchFlags)
    (minibatchPackingFlags : MinibatchFlags) : MatQ :=
  let dIdx : Int := (t : Int) + direction * timeStep
  if 0 ≤ dIdx ∧ dIdx < (gradientValues.ncols : Int) then
    let base : Nat := dIdx.toNat * mNbr
    if minibatchPackingFlags.overlaps (marker.union noFeatureFlag) = true then
      { inputGradientValues with entry := fun r c =>
          if base ≤ c ∧ c < base + mNbr ∧
              ¬ (colBoundaryFlags (c - base)).overlaps marker = true ∧
              ¬ (colBoundaryFlags (c - base)).overlaps noFeatureFlag = true then
            inputGradientValues.entry r c + gradientValues.entry r (t * mNbr + (c - base))
          else inputGradientValues.entry r c }
    else
      { inputGradientValues with entry := fun r c =>
          if base ≤ c ∧ c < base + mNbr then
            inputGradientValues.entry r c + gradientValues.entry r (t * mNbr + (c - base))
          else inputGradientValues.entry r c }
  else inputGradientValues

/-! ## Flag bitset facts -/

lemma contains_overlaps (a b m : MinibatchFlags)
    (hab : a.contains b = true) (hbm : b.overlaps m = true) :
    a.overlaps m = true := by
  revert hab hbm; revert a b m; decide

lemma overlaps_union_left (a m x : MinibatchFlags) (h : a.overlaps m = true) :
    a.overlaps (m.union x) = true := by
  revert h; revert a m x; decide

lemma overlaps_union_right (a m x : MinibatchFlags) (h : a.overlaps x = true) :
    a.overlaps (m.union x) = true := by
  revert h; revert a m x; decide

lemma contains_noInput_overlaps_noFeature (a : MinibatchFlags)
    (h : a.contains noInputFlag = true) : a.overlaps noFeatureFlag = true := by
  revert h; revert a; decide

/-! ## Claims C7 and C8: gradient scatter of the delayed-value nodes -/


lemma cipSRP_entry_add (direction : Int) (marker : MinibatchFlags)
    (t mNbr : Nat) (timeStep : Int) (ig gv : MatQ)
    (colF : Nat → MinibatchFlags) (pack : MinibatchFlags)
    (s : Nat) (hs : s < mNbr)
    (h0 : 0 ≤ (t : Int) + direction * timeStep)
    (h1 : (t : Int) + direction * timeStep < (gv.ncols : Int))
    (hm : (colF s).overlaps marker = false)
    (hf : (colF s).overlaps noFeatureFlag = false) (r : Nat) :
    (computeInputPartialSRP direction marker t mNbr timeStep ig gv colF pack).entry
        r (((t : Int) + direction * timeStep).toNat * mNbr + s)
      = ig.entry r (((t : Int) + direction * timeStep).toNat * mNbr + s)
        + gv.entry r (t * mNbr + s) := by
  have hsub : ∀ x : Nat, x + s - x = s := fun x => Nat.add_sub_cancel_left x s
  simp only [computeInputPartialSRP]
  rw [if_pos ⟨h0, h1⟩]
  by_cases hpack : pack.overlaps (marker.union noFeatureFlag) = true
  · rw [if_pos hpack]
    dsimp only
    rw [hsub]
    rw [if_pos ⟨Nat.le_add_right _ _, by omega, by simp [hm], by simp [hf]⟩]
  · rw [if_neg hpack]
    dsimp only
    rw [hsub]
    rw [if_pos ⟨Nat.le_add_right _ _, by omega⟩]

/-- Claim C7: for every delayed-value node and every frame whose delayed
index is within the gradient buffer's column range and whose shifted flag
permits propagation (it carries neither the boundary marker nor
`NoFeature`), `ComputeInputPartialSRP` adds the node's gradient at column
`t` onto the pre-existing contents of the input's gradient at column `d`
(`+=`), so two successive contributions to the same input-gradient column
sum rather than the later one overwriting the earlier one. -/
theorem claimC7_gradientScatterAdditive (direction : Int) (marker : MinibatchFlags)
    (t mNbr : Nat) (timeStep : Int) (ig gv : MatQ)
    (colF : Nat → MinibatchFlags) (pack : MinibatchFlags)
    (s : Nat) (hs : s < mNbr)
    (h0 : 0 ≤ (t : Int) + direction * timeStep)
    (h1 : (t : Int) + direction * timeStep < (gv.ncols : Int))
    (hm : (colF s).overlaps marker = false)
    (hf : (colF s).overlaps noFeatureFlag = false) (r : Nat) :
    (computeInputPartialSRP direction marker t mNbr timeStep ig gv colF pack).entry
        r (((t : Int) + direction * timeStep).toNat * mNbr + s)
      = ig.entry r (((t : Int) + direction * timeStep).toNat * mNbr + s)
        + gv.entry r (t * mNbr + s)
    ∧ (computeInputPartialSRP direction marker t mNbr timeStep
          (computeInputPartialSRP direction marker t mNbr timeStep ig gv colF pack)
          gv colF pack).entry
        r (((t : Int) + direction * timeStep).toNat * mNbr + s)
      = ig.entry r (((t : Int) + direction * timeStep).toNat * mNbr + s)
        + gv.entry r (t * mNbr + s) + gv.entry r (t * mNbr + s) := by
  refine ⟨cipSRP_entry_add direction marker t mNbr timeStep ig gv colF pack s hs h0 h1 hm hf r, ?_⟩
  rw [cipSRP_entry_add direction marker t mNbr timeStep _ gv colF pack s hs h0 h1 hm hf r,
    cipSRP_entry_add direction marker t mNbr timeStep ig gv colF pack s hs h0 h1 hm hf r]

/-- Witness for claim C7 at a concrete `PastValueNode` instance
(direction −1, marker `SequenceStart`, `t = 1`, one stream, step 1). -/
theorem claimC7_witness :
    ((0 : Nat) < 1 ∧ (0 : Int) ≤ (1 : Int) + (-1) * 1 ∧
      (1 : Int) + (-1) * 1 < ((3 : Nat) : Int) ∧
      flagNone.overlaps sequenceStart = false ∧
      flagNone.overlaps noFeatureFlag = false) ∧
    ((computeInputPartialSRP (-1) sequenceStart 1 1 1 ⟨1, 3, fun _ _ => 2⟩
        ⟨1, 3, fun _ c => (c : ElemType)⟩ (fun _ => flagNone) flagNone).entry
        0 (((1 : Int) + (-1) * 1).toNat * 1 + 0)
      = (MatQ.mk 1 3 fun _ _ => 2).entry 0 (((1 : Int) + (-1) * 1).toNat * 1 + 0)
        + (MatQ.mk 1 3 fun _ c => (c : ElemType)).entry 0 (1 * 1 + 0)
    ∧ (computeInputPartialSRP (-1) sequenceStart 1 1 1
          (computeInputPartialSRP (-1) sequenceStart 1 1 1 ⟨1, 3, fun _ _ => 2⟩
            ⟨1, 3, fun _ c => (c : ElemType)⟩ (fun _ => flagNone) flagNone)
          ⟨1, 3, fun _ c => (c : ElemType)⟩ (fun _ => flagNone) flagNone).entry
        0 (((1 : Int) + (-1) * 1).toNat * 1 + 0)
      = (MatQ.mk 1 3 fun _ _ => 2).entry 0 (((1 : Int) + (-1) * 1).toNat * 1 + 0)
        + (MatQ.mk 1 3 fun _ c => (c : ElemType)).entry 0 (1 * 1 + 0)
        + (MatQ.mk 1 3 fun _ c => (c : ElemType)).entry 0 (1 * 1 + 0)) :=
  ⟨⟨by decide, by decide, by decide, by decide, by decide⟩,
    claimC7_gradientScatterAdditive (-1) sequenceStart 1 1 1 ⟨1, 3, fun _ _ => 2⟩
      ⟨1, 3, fun _ c => (c : ElemType)⟩ (fun _ => flagNone) flagNone 0
      (by decide) (by decide) (by decide) (by decide) (by decide) 0⟩

/-- Claim C8: for every delayed-value node, frame `t` and stream: when the
delayed frame index `t + direction·S` falls outside the gradient buffer's
column range, `ComputeInputPartialSRP` leaves the whole input gradient
unchanged; and when (under the layout invariant relating the stream flag to
the frame's summary flag) the stream's shifted flag carries the boundary
marker or `NoInput`, the input gradient is unchanged at that stream's
delayed column — the gradient contribution is dropped. -/
theorem claimC8_gradientContributionDropped :
    (∀ (direction : Int) (marker : MinibatchFlags) (t mNbr : Nat) (timeStep : Int)
        (ig gv : MatQ) (colF : Nat → MinibatchFlags) (pack : MinibatchFlags),
      ¬ (0 ≤ (t : Int) + direction * timeStep ∧
          (t : Int) + direction * timeStep < (gv.ncols : Int)) →
      computeInputPartialSRP direction marker t mNbr timeStep ig gv colF pack = ig)
    ∧ (∀ (direction : Int) (marker : MinibatchFlags) (t mNbr : Nat) (timeStep : Int)
        (ig gv : MatQ) (colF : Nat → MinibatchFlags) (pack : MinibatchFlags)
        (s r : Nat), s < mNbr →
      pack.contains (colF s) = true →
      ((colF s).overlaps marker = true ∨ (colF s).contains noInputFlag = true) →
      (computeInputPartialSRP direction marker t mNbr timeStep ig gv colF pack).entry
          r (((t : Int) + direction * timeStep).toNat * mNbr + s)
        = ig.entry r (((t : Int) + direction * timeStep).toNat * mNbr + s)) := by
  constructor
  · intro direction marker t mNbr timeStep ig gv colF pack h
    simp only [computeInputPartialSRP]
    rw [if_neg h]
  · intro direction marker t mNbr timeStep ig gv colF pack s r hs hwf hflag
    have hsub : ∀ x : Nat, x + s - x = s := fun x => Nat.add_sub_cancel_left x s
    by_cases hrange : 0 ≤ (t : Int) + direction * timeStep ∧
        (t : Int) + direction * timeStep < (gv.ncols : Int)
    · have hnf : (colF s).overlaps (marker.union noFeatureFlag) = true := by
        rcases hflag with h | h
        · exact overlaps_union_left _ _ _ h
        · exact overlaps_union_right _ _ _ (contains_noInput_overlaps_noFeature _ h)
      have hpack : pack.overlaps (marker.union noFeatureFlag) = true :=
        contains_overlaps _ _ _ hwf hnf
      simp only [computeInputPartialSRP]
      rw [if_pos hrange, if_pos hpack]
      dsimp only
      rw [hsub]
      rw [if_neg]
      intro hcond
      rcases hcond with ⟨-, -, hm2, hnf2⟩
      rcases hflag with h | h
      · exact hm2 h
      · exact hnf2 (contains_noInput_overlaps_noFeature _ h)
    · simp only [computeInputPartialSRP]
      rw [if_neg hrange]

/-- Witness for claim C8: a concrete out-of-range frame (part one) and a
concrete boundary-flagged stream (part two). -/
theorem claimC8_witness :
    (computeInputPartialSRP (-1) sequenceStart 0 1 1 ⟨1, 3, fun _ _ => 2⟩
        ⟨1, 3, fun _ _ => 5⟩ (fun _ => flagNone) flagNone = ⟨1, 3, fun _ _ => 2⟩)
    ∧ ((computeInputPartialSRP (-1) sequenceStart 1 1 1 ⟨1, 3, fun _ _ => 2⟩
        ⟨1, 3, fun _ _ => 5⟩ (fun _ => sequenceStart) sequenceStart).entry
          0 (((1 : Int) + (-1) * 1).toNat * 1 + 0)
        = (MatQ.mk 1 3 fun _ _ => 2).entry 0 (((1 : Int) + (-1) * 1).toNat * 1 + 0)) :=
  ⟨claimC8_gradientContributionDropped.1 (-1) sequenceStart 0 1 1 ⟨1, 3, fun _ _ => 2⟩
      ⟨1, 3, fun _ _ => 5⟩ (fun _ => flagNone) flagNone (by decide),
    claimC8_gradientContributionDropped.2 (-1) sequenceStart 1 1 1 ⟨1, 3, fun _ _ => 2⟩
      ⟨1, 3, fun _ _ => 5⟩ (fun _ => sequenceStart) sequenceStart 0 0
      (by decide) (by decide) (Or.inl (by decide))⟩

/-! ## Full-minibatch Evaluate of the delayed-value nodes
(`PastValueNode::EvaluateThisNode`, RecurrentNodes.h 387-401, ascending
frame loop; `FutureValueNode::EvaluateThisNode`, RecurrentNodes.h 456-469,
descending frame loop; both end by overwriting `m_delayedActivation` with
the input's current values). -/

/-- State of `m_functionValues` after the ascending `PastValueNode` frame
loop has processed frames `0 .. n-1` (each iteration reads frame `t` of the
shifted layout and calls `EvaluateThisNodeSRP`). -/
def pastValueLoop (timeStep : Int) (mNbr : Nat) (shifted : MBLayoutM)
    (delayedActivation inputFunctionValues : MatQ)
    (initialActivationValue : ElemType) (fv : MatQ) : Nat → MatQ
  | 0 => fv
  | t + 1 =>
    evaluateThisNodeSRP (-1) sequenceStart t mNbr timeStep
      (pastValueLoop timeStep mNbr shifted delayedActivation inputFunctionValues
        initialActivationValue fv t)
      delayedActivation inputFunctionValues initialActivationValue
      (fun i => shifted.streamFlags i t) (shifted.framePacking t)

/-- `PastValueNode::EvaluateThisNode` (full minibatch): run the ascending
frame loop over `nbrSamples = inputCols / mNbr` frames, then set
`m_delayedActivation` to the input's current values.  Result: the new
`(m_functionValues, m_delayedActivation)`. -/
def pastValueEvaluateThisNode (timeStep : Int) (mNbr : Nat) (shifted : MBLayoutM)
    (functionValues delayedActivation inputFunctionValues : MatQ)
    (initialActivationValue : ElemType) : MatQ × MatQ :=
  (pastValueLoop timeStep mNbr shifted delayedActivation inputFunctionValues
      initialActivationValue functionValues (inputFunctionValues.ncols / mNbr),
   inputFunctionValues)

/-- State of `m_functionValues` after the descending `FutureValueNode`
frame loop has processed frames `t, t-1, .., 0` starting from `fv`. -/
def futureValueLoop (timeStep : Int) (mNbr : Nat) (shifted : MBLayoutM)
    (delayedActivation inputFunctionValues : MatQ)
    (initialActivationValue : ElemType) : Nat → MatQ → MatQ
  | 0, fv =>
    evaluateThisNodeSRP 1 sequenceEnd 0 mNbr timeStep fv
      delayedActivation inputFunctionValues initialActivationValue
      (fun i => shifted.streamFlags i 0) (shifted.framePacking 0)
  | t + 1, fv =>
    futureValueLoop timeStep mNbr shifted delayedActivation inputFunctionValues
      initialActivationValue t
      (evaluateThisNodeSRP 1 sequenceEnd (t + 1) mNbr timeStep fv
        delayedActivation inputFunctionValues initialActivationValue
        (fun i => shifted.streamFlags i (t + 1)) (shifted.framePacking (t + 1)))

/-- `FutureValueNode::EvaluateThisNode` (full minibatch): run the
descending frame loop from frame `nbrSamples - 1` down to `0` (no
iterations when `nbrSamples = 0`), then set `m_delayedActivation` to the
input's current values. -/
def futureValueEvaluateThisNode (timeStep : Int) (mNbr : Nat) (shifted : MBLayoutM)
    (functionValues delayedActivation inputFunctionValues : MatQ)
    (initialActivationValue : ElemType) : MatQ × MatQ :=
  (if inputFunctionValues.ncols / mNbr = 0 then functionValues
   else
     futureValueLoop timeStep mNbr shifted delayedActivation inputFunctionValues
       initialActivationValue (inputFunctionValues.ncols / mNbr - 1) functionValues,
   inputFunctionValues)

/-! ## Frame characterization of the evaluate loops -/

lemma evaluateThisNodeSRP_entry_frame (direction : Int) (marker : MinibatchFlags)
    (t mNbr : Nat) (timeStep : Int) (fv da inp : MatQ) (init : ElemType)
    (colF : Nat → MinibatchFlags) (pack : MinibatchFlags) (r c : Nat)
    (hc : t * mNbr ≤ c ∧ c < t * mNbr + mNbr) :
    (evaluateThisNodeSRP direction marker t mNbr timeStep fv da inp init colF pack).entry r c
      = srpWrittenEntry direction marker t mNbr timeStep da inp init colF pack (c - t * mNbr) r := by
  simp only [evaluateThisNodeSRP]
  rw [if_pos hc]

lemma evaluateThisNodeSRP_entry_outside (direction : Int) (marker : MinibatchFlags)
    (t mNbr : Nat) (timeStep : Int) (fv da inp : MatQ) (init : ElemType)
    (colF : Nat → MinibatchFlags) (pack : MinibatchFlags) (r c : Nat)
    (hc : ¬ (t * mNbr ≤ c ∧ c < t * mNbr + mNbr)) :
    (evaluateThisNodeSRP direction marker t mNbr timeStep fv da inp init colF pack).entry r c
      = fv.entry r c := by
  simp only [evaluateThisNodeSRP]
  rw [if_neg hc]
  split <;> rfl

lemma frame_columns_disjoint (t u mNbr s : Nat) (hs : s < mNbr) (hne : t ≠ u) :
    ¬ (u * mNbr ≤ t * mNbr + s ∧ t * mNbr + s < u * mNbr + mNbr) := by
  rintro ⟨hle, hlt⟩
  rcases Nat.lt_or_ge t u with h | h
  · have hx : t * mNbr + mNbr ≤ u * mNbr := by
      have := Nat.mul_le_mul_right mNbr (Nat.succ_le_of_lt h)
      simpa [Nat.succ_mul] using this
    exact absurd (lt_of_le_of_lt hle (lt_of_lt_of_le (Nat.add_lt_add_left hs _) hx))
      (lt_irrefl _)
  · have ht : u < t := lt_of_le_of_ne h (Ne.symm hne)
    have hx : u * mNbr + mNbr ≤ t * mNbr := by
      have := Nat.mul_le_mul_right mNbr (Nat.succ_le_of_lt ht)
      simpa [Nat.succ_mul] using this
    have : t * mNbr + s < t * mNbr := lt_of_lt_of_le hlt hx
    omega

lemma pastValueLoop_entry_written (timeStep : Int) (mNbr : Nat) (shifted : MBLayoutM)
    (da inp : MatQ) (init : ElemType) (fv : MatQ) (n t₀ s r : Nat)
    (hs : s < mNbr) (ht : t₀ < n) :
    (pastValueLoop timeStep mNbr shifted da inp init fv n).entry r (t₀ * mNbr + s)
      = srpWrittenEntry (-1) sequenceStart t₀ mNbr timeStep da inp init
          (fun i => shifted.streamFlags i t₀) (shifted.framePacking t₀) s r := by
  induction n with
  | zero => omega
  | succ m ih =>
    by_cases hm : t₀ = m
    · subst hm
      rw [show pastValueLoop timeStep mNbr shifted da inp init fv (t₀ + 1)
            = evaluateThisNodeSRP (-1) sequenceStart t₀ mNbr timeStep
                (pastValueLoop timeStep mNbr shifted da inp init fv t₀) da inp init
                (fun i => shifted.streamFlags i t₀) (shifted.framePacking t₀) from rfl]
      rw [evaluateThisNodeSRP_entry_frame _ _ _ _ _ _ _ _ _ _ _ _ _
        ⟨Nat.le_add_right _ _, Nat.add_lt_add_left hs _⟩]
      rw [Nat.add_sub_cancel_left]
    · rw [show pastValueLoop timeStep mNbr shifted da inp init fv (m + 1)
            = evaluateThisNodeSRP (-1) sequenceStart m mNbr timeStep
                (pastValueLoop timeStep mNbr shifted da inp init fv m) da inp init
                (fun i => shifted.streamFlags i m) (shifted.framePacking m) from rfl]
      rw [evaluateThisNodeSRP_entry_outside _ _ _ _ _ _ _ _ _ _ _ _ _
        (frame_columns_disjoint t₀ m mNbr s hs hm)]
      exact ih (by omega)

lemma futureValueLoop_entry_outside (timeStep : Int) (mNbr : Nat) (shifted : MBLayoutM)
    (da inp : MatQ) (init : ElemType) (t r c : Nat)
    (hc : ∀ u, u ≤ t → ¬ (u * mNbr ≤ c ∧ c < u * mNbr + mNbr)) :
    ∀ fv : MatQ,
      (futureValueLoop timeStep mNbr shifted da inp init t fv).entry r c = fv.entry r c := by
  induction t with
  | zero =>
    intro fv
    exact evaluateThisNodeSRP_entry_outside _ _ _ _ _ _ _ _ _ _ _ _ _ (hc 0 (le_refl 0))
  | succ m ih =>
    intro fv
    rw [show futureValueLoop timeStep mNbr shifted da inp init (m + 1) fv
          = futureValueLoop timeStep mNbr shifted da inp init m
              (evaluateThisNodeSRP 1 sequenceEnd (m + 1) mNbr timeStep fv da inp init
                (fun i => shifted.streamFlags i (m + 1)) (shifted.framePacking (m + 1)))
        from rfl]
    rw [ih (fun u hu => hc u (le_trans hu (Nat.le_succ m)))]
    exact evaluateThisNodeSRP_entry_outside _ _ _ _ _ _ _ _ _ _ _ _ _ (hc (m + 1) (le_refl _))

lemma futureValueLoop_entry_written (timeStep : Int) (mNbr : Nat) (shifted : MBLayoutM)
    (da inp : MatQ) (init : ElemType) (t t₀ s r : Nat)
    (hs : s < mNbr) (ht : t₀ ≤ t) :
    ∀ fv : MatQ,
      (futureValueLoop timeStep mNbr shifted da inp init t fv).entry r (t₀ * mNbr + s)
        = srpWrittenEntry 1 sequenceEnd t₀ mNbr timeStep da inp init
            (fun i => shifted.streamFlags i t₀) (shifted.framePacking t₀) s r := by
  induction t with
  | zero =>
    intro fv
    have ht0 : t₀ = 0 := Nat.le_zero.mp ht
    subst ht0
    rw [show futureValueLoop timeStep mNbr shifted da inp init 0 fv
          = evaluateThisNodeSRP 1 sequenceEnd 0 mNbr timeStep fv da inp init
              (fun i => shifted.streamFlags i 0) (shifted.framePacking 0) from rfl]
    rw [evaluateThisNodeSRP_entry_frame _ _ _ _ _ _ _ _ _ _ _ _ _
      ⟨Nat.le_add_right _ _, Nat.add_lt_add_left hs _⟩]
    rw [Nat.add_sub_cancel_left]
  | succ m ih =>
    intro fv
    rw [show futureValueLoop timeStep mNbr shifted da inp init (m + 1) fv
          = futureValueLoop timeStep mNbr shifted da inp init m
              (evaluateThisNodeSRP 1 sequenceEnd (m + 1) mNbr timeStep fv da inp init
                (fun i => shifted.streamFlags i (m + 1)) (shifted.framePacking (m + 1)))
        from rfl]
    by_cases hm : t₀ = m + 1
    · subst hm
      rw [futureValueLoop_entry_outside timeStep mNbr shifted da inp init m r _
        (fun u hu => frame_columns_disjoint (m + 1) u mNbr s hs (by omega))]
      rw [evaluateThisNodeSRP_entry_frame _ _ _ _ _ _ _ _ _ _ _ _ _
        ⟨Nat.le_add_right _ _, Nat.add_lt_add_left hs _⟩]
      rw [Nat.add_sub_cancel_left]
    · exact ih (by omega) _

lemma srpWrittenEntry_copy (direction : Int) (marker : MinibatchFlags) (t mNbr : Nat)
    (timeStep : Int) (da inp : MatQ) (init : ElemType) (colF : Nat → MinibatchFlags)
    (pack : MinibatchFlags) (i r : Nat)
    (hb : ¬ (pack.overlaps marker = true ∧ (colF i).overlaps marker = true))
    (h0 : 0 ≤ ((t : Int) + direction * timeStep) * (mNbr : Int))
    (h1 : ((t : Int) + direction * timeStep) * (mNbr : Int) < (inp.ncols : Int)) :
    srpWrittenEntry direction marker t mNbr timeStep da inp init colF pack i r
      = inp.entry r ((((t : Int) + direction * timeStep) * (mNbr : Int) + i).toNat) := by
  have hrange : ¬ (((t : Int) + direction * timeStep) * (mNbr : Int) < 0 ∨
      (inp.ncols : Int) ≤ ((t : Int) + direction * timeStep) * (mNbr : Int)) := by
    rintro (h | h)
    · exact absurd h (not_lt.mpr h0)
    · exact absurd h1 (not_lt.mpr h)
  simp only [srpWrittenEntry]
  rw [if_neg hb]
  simp only [if_neg hrange]

lemma srpWrittenEntry_boundary (direction : Int) (marker : MinibatchFlags) (t mNbr : Nat)
    (timeStep : Int) (da inp : MatQ) (init : ElemType) (colF : Nat → MinibatchFlags)
    (pack : MinibatchFlags) (i r : Nat)
    (hb : pack.overlaps marker = true ∧ (colF i).overlaps marker = true) :
    srpWrittenEntry direction marker t mNbr timeStep da inp init colF pack i r = init := by
  simp only [srpWrittenEntry]
  rw [if_pos hb]

/-- Claim C1: for a `PastValueNode` or `FutureValueNode` with `timeStep = 1`,
after a full-minibatch `EvaluateThisNode`, every frame/stream whose shifted
boundary flag does not carry the boundary marker and whose delayed frame
`t + direction` lies within the minibatch's column range has its output
column bit-identical to the input's column at the delayed frame. -/
theorem claimC1_delayedValueCopiesInput :
    (∀ (mNbr nF : Nat) (shifted : MBLayoutM) (fv da inp : MatQ) (init : ElemType)
        (u s r : Nat),
      0 < mNbr → inp.ncols = nF * mNbr → u + 1 < nF → s < mNbr →
      (shifted.streamFlags s (u + 1)).overlaps sequenceStart = false →
      (pastValueEvaluateThisNode 1 mNbr shifted fv da inp init).1.entry r ((u + 1) * mNbr + s)
        = inp.entry r (u * mNbr + s))
    ∧ (∀ (mNbr nF : Nat) (shifted : MBLayoutM) (fv da inp : MatQ) (init : ElemType)
        (t s r : Nat),
      0 < mNbr → inp.ncols = nF * mNbr → t + 1 < nF → s < mNbr →
      (shifted.streamFlags s t).overlaps sequenceEnd = false →
      (futureValueEvaluateThisNode 1 mNbr shifted fv da inp init).1.entry r (t * mNbr + s)
        = inp.entry r ((t + 1) * mNbr + s)) := by
  constructor
  · intro mNbr nF shifted fv da inp init u s r hm hcols ht hs hflag
    have hdiv : inp.ncols / mNbr = nF := by rw [hcols]; exact Nat.mul_div_cancel _ hm
    have hult : u * mNbr < nF * mNbr := Nat.mul_lt_mul_of_lt_of_le (by omega) (le_refl _) hm
    simp only [pastValueEvaluateThisNode]
    rw [hdiv]
    rw [pastValueLoop_entry_written 1 mNbr shifted da inp init fv nF (u + 1) s r hs ht]
    rw [srpWrittenEntry_copy (-1) sequenceStart (u + 1) mNbr 1 da inp init
      (fun i => shifted.streamFlags i (u + 1)) (shifted.framePacking (u + 1)) s r
      (fun hc => absurd hc.2 (by rw [hflag]; exact Bool.false_ne_true))
      (by push_cast; ring_nf; positivity)
      (by rw [hcols]
          have e : (((u + 1 : Nat) : Int) + (-1) * 1) * (mNbr : Int)
              = ((u * mNbr : Nat) : Int) := by push_cast; ring
          rw [e]; exact_mod_cast hult)]
    have hidx : ((((u + 1 : Nat) : Int) + (-1) * 1) * (mNbr : Int) + (s : Nat)).toNat
        = u * mNbr + s := by
      have e : (((u + 1 : Nat) : Int) + (-1) * 1) * (mNbr : Int) + (s : Nat)
          = ((u * mNbr + s : Nat) : Int) := by push_cast; ring
      rw [e]; exact Int.toNat_natCast _
    rw [hidx]
  · intro mNbr nF shifted fv da inp init t s r hm hcols ht hs hflag
    have hdiv : inp.ncols / mNbr = nF := by rw [hcols]; exact Nat.mul_div_cancel _ hm
    have hnz : ¬ inp.ncols / mNbr = 0 := by rw [hdiv]; omega
    have hult : (t + 1) * mNbr < nF * mNbr :=
      Nat.mul_lt_mul_of_lt_of_le ht (le_refl _) hm
    simp only [futureValueEvaluateThisNode]
    rw [if_neg hnz, hdiv]
    rw [futureValueLoop_entry_written 1 mNbr shifted da inp init (nF - 1) t s r hs (by omega) fv]
    rw [srpWrittenEntry_copy 1 sequenceEnd t mNbr 1 da inp init
      (fun i => shifted.streamFlags i t) (shifted.framePacking t) s r
      (fun hc => absurd hc.2 (by rw [hflag]; exact Bool.false_ne_true))
      (by positivity)
      (by rw [hcols]
          have e : ((t : Int) + 1 * 1) * (mNbr : Int)
              = (((t + 1) * mNbr : Nat) : Int) := by push_cast; ring
          rw [e]; exact_mod_cast hult)]
    have hidx : (((t : Int) + 1 * 1) * (mNbr : Int) + (s : Nat)).toNat
        = (t + 1) * mNbr + s := by
      have e : ((t : Int) + 1 * 1) * (mNbr : Int) + (s : Nat)
          = (((t + 1) * mNbr + s : Nat) : Int) := by push_cast; ring
      rw [e]; exact Int.toNat_natCast _
    rw [hidx]

/-- Witness for claim C1: a two-frame, one-stream minibatch with no
boundary flags; frame 1 of the past node copies input frame 0given, and
frame 0 of the future node copies input frame 1. -/
theorem claimC1_witness :
    ((0 : Nat) < 1 ∧ (MatQ.mk 1 2 fun _ c => (c : ElemType) + 10).ncols = 2 * 1 ∧
      0 + 1 < 2 ∧ (0 : Nat) < 1 ∧
      ((MBLayoutM.mk 1 2 (fun _ _ => flagNone) (fun _ => flagNone)).streamFlags 0
          (0 + 1)).overlaps sequenceStart = false ∧
      ((MBLayoutM.mk 1 2 (fun _ _ => flagNone) (fun _ => flagNone)).streamFlags 0
          0).overlaps sequenceEnd = false) ∧
    (pastValueEvaluateThisNode 1 1 ⟨1, 2, fun _ _ => flagNone, fun _ => flagNone⟩
        (matZero 1 2) (matConst 1 2 7) ⟨1, 2, fun _ c => (c : ElemType) + 10⟩ 9).1.entry
        0 ((0 + 1) * 1 + 0)
      = (MatQ.mk 1 2 fun _ c => (c : ElemType) + 10).entry 0 (0 * 1 + 0) ∧
    (futureValueEvaluateThisNode 1 1 ⟨1, 2, fun _ _ => flagNone, fun _ => flagNone⟩
        (matZero 1 2) (matConst 1 2 7) ⟨1, 2, fun _ c => (c : ElemType) + 10⟩ 9).1.entry
        0 (0 * 1 + 0)
      = (MatQ.mk 1 2 fun _ c => (c : ElemType) + 10).entry 0 ((0 + 1) * 1 + 0) :=
  ⟨⟨by decide, rfl, by decide, by decide, by decide, by decide⟩,
    claimC1_delayedValueCopiesInput.1 1 2 ⟨1, 2, fun _ _ => flagNone, fun _ => flagNone⟩
      (matZero 1 2) (matConst 1 2 7) ⟨1, 2, fun _ c => (c : ElemType) + 10⟩ 9 0 0 0
      (by decide) rfl (by decide) (by decide) (by decide),
    claimC1_delayedValueCopiesInput.2 1 2 ⟨1, 2, fun _ _ => flagNone, fun _ => flagNone⟩
      (matZero 1 2) (matConst 1 2 7) ⟨1, 2, fun _ c => (c : ElemType) + 10⟩ 9 0 0 0
      (by decide) rfl (by decide) (by decide) (by decide)⟩

/-- Claim C2: for every delayed-value node (any `timeStep`), every frame
and stream whose shifted boundary flag carries the boundary marker
(`SequenceStart` for past, `SequenceEnd` for future) gets the node's
configured initial-activation constant written into its output column by
the full-minibatch Evaluate, for arbitrary input and delayed-activation
buffers (hence independently of the input contents and of the delayed
index). -/
theorem claimC2_boundaryWritesInitialActivation :
    (∀ (timeStep : Int) (mNbr nF : Nat) (shifted : MBLayoutM) (fv da inp : MatQ)
        (init : ElemType) (t s r : Nat),
      0 < mNbr → inp.ncols = nF * mNbr → t < nF → s < mNbr →
      shifted.wf → mNbr ≤ shifted.numStreams → nF ≤ shifted.numFrames →
      (shifted.streamFlags s t).overlaps sequenceStart = true →
      (pastValueEvaluateThisNode timeStep mNbr shifted fv da inp init).1.entry
          r (t * mNbr + s) = init)
    ∧ (∀ (timeStep : Int) (mNbr nF : Nat) (shifted : MBLayoutM) (fv da inp : MatQ)
        (init : ElemType) (t s r : Nat),
      0 < mNbr → inp.ncols = nF * mNbr → t < nF → s < mNbr →
      shifted.wf → mNbr ≤ shifted.numStreams → nF ≤ shifted.numFrames →
      (shifted.streamFlags s t).overlaps sequenceEnd = true →
      (futureValueEvaluateThisNode timeStep mNbr shifted fv da inp init).1.entry
          r (t * mNbr + s) = init) := by
  constructor
  · intro timeStep mNbr nF shifted fv da inp init t s r hm hcols ht hs hwf hstr hfrm hflag
    have hdiv : inp.ncols / mNbr = nF := by rw [hcols]; exact Nat.mul_div_cancel _ hm
    have hpack : (shifted.framePacking t).overlaps sequenceStart = true :=
      contains_overlaps _ _ _
        (hwf s t (lt_of_lt_of_le hs hstr) (lt_of_lt_of_le ht hfrm)) hflag
    simp only [pastValueEvaluateThisNode]
    rw [hdiv]
    rw [pastValueLoop_entry_written timeStep mNbr shifted da inp init fv nF t s r hs ht]
    exact srpWrittenEntry_boundary _ _ _ _ _ _ _ _ _ _ _ _ ⟨hpack, hflag⟩
  · intro timeStep mNbr nF shifted fv da inp init t s r hm hcols ht hs hwf hstr hfrm hflag
    have hdiv : inp.ncols / mNbr = nF := by rw [hcols]; exact Nat.mul_div_cancel _ hm
    have hnz : ¬ inp.ncols / mNbr = 0 := by rw [hdiv]; omega
    have hpack : (shifted.framePacking t).overlaps sequenceEnd = true :=
      contains_overlaps _ _ _
        (hwf s t (lt_of_lt_of_le hs hstr) (lt_of_lt_of_le ht hfrm)) hflag
    simp only [futureValueEvaluateThisNode]
    rw [if_neg hnz, hdiv]
    rw [futureValueLoop_entry_written timeStep mNbr shifted da inp init (nF - 1) t s r hs
      (by omega) fv]
    exact srpWrittenEntry_boundary _ _ _ _ _ _ _ _ _ _ _ _ ⟨hpack, hflag⟩

/-- Witness for claim C2: one stream, two frames, every cell flagged as a
boundary, `timeStep = 5` (so the delayed index is far out of range), input
entries all 10, initial activation 9: the output is 9. -/
theorem claimC2_witness :
    ((0 : Nat) < 1 ∧ (matConst 1 2 10).ncols = 2 * 1 ∧ 1 < 2 ∧ (0 : Nat) < 1 ∧
      ((MBLayoutM.mk 1 2 (fun _ _ => sequenceStart) (fun _ => sequenceStart)).streamFlags 0
          1).overlaps sequenceStart = true ∧
      ((MBLayoutM.mk 1 2 (fun _ _ => sequenceEnd) (fun _ => sequenceEnd)).streamFlags 0
          1).overlaps sequenceEnd = true) ∧
    (pastValueEvaluateThisNode 5 1 ⟨1, 2, fun _ _ => sequenceStart, fun _ => sequenceStart⟩
        (matZero 1 2) (matConst 1 2 7) (matConst 1 2 10) 9).1.entry 0 (1 * 1 + 0) = 9 ∧
    (futureValueEvaluateThisNode 5 1 ⟨1, 2, fun _ _ => sequenceEnd, fun _ => sequenceEnd⟩
        (matZero 1 2) (matConst 1 2 7) (matConst 1 2 10) 9).1.entry 0 (1 * 1 + 0) = 9 :=
  ⟨⟨by decide, rfl, by decide, by decide, by decide, by decide⟩,
    claimC2_boundaryWritesInitialActivation.1 5 1 2
      ⟨1, 2, fun _ _ => sequenceStart, fun _ => sequenceStart⟩
      (matZero 1 2) (matConst 1 2 7) (matConst 1 2 10) 9 1 0 0
      (by decide) rfl (by decide) (by decide) (fun _ _ _ _ => rfl)
      (by decide) (by decide) (by decide),
    claimC2_boundaryWritesInitialActivation.2 5 1 2
      ⟨1, 2, fun _ _ => sequenceEnd, fun _ => sequenceEnd⟩
      (matZero 1 2) (matConst 1 2 7) (matConst 1 2 10) 9 1 0 0
      (by decide) rfl (by decide) (by decide) (fun _ _ _ _ => rfl)
      (by decide) (by decide) (by decide)⟩

/-! ## DelayedValueNodeBase::SetMBLayout (RecurrentNodes.h 99-153)

The shifted layout starts as a copy of the base layout; for `timeStep > 1`
a forward scan keeps a per-stream countdown `numResetLeft`: at each frame
whose summary flag carries the boundary marker or `NoFeature`, a stream
with the marker resets its countdown to `timeStep` and a stream with
`NoFeature` clears it to zero; every stream with a positive countdown has
its shifted flag masked to its `NoLabel` bit and the marker implanted, and
the countdown is post-decremented every frame. -/

/-- The countdown update of one scan frame (lines 123-134): performed only
when the frame's summary flag carries the marker or `NoFeature`. -/
def shiftStepUpdateReset (marker : MinibatchFlags) (timeStep : Int) (base : MBLayoutM)
    (i : Nat) (reset : Nat → Int) : Nat → Int :=
  if (base.framePacking i).overlaps (marker.union noFeatureFlag) = true then
    fun j =>
      if (base.streamFlags j i).overlaps marker = true then timeStep
      else if (base.streamFlags j i).overlaps noFeatureFlag = true then 0
      else reset j
  else reset

/-- One frame of the scan (lines 121-151): update the countdowns, implant
the boundary flag (`Mask` to `NoLabel` then `Set` the marker) for streams
with a positive countdown, and post-decrement every countdown. -/
def shiftStep (marker : MinibatchFlags) (timeStep : Int) (base : MBLayoutM)
    (st : (Nat → Int) × (Nat → Nat → MinibatchFlags)) (i : Nat) :
    (Nat → Int) × (Nat → Nat → MinibatchFlags) :=
  (fun j => shiftStepUpdateReset marker timeStep base i st.1 j - 1,
   fun j i' =>
     if i' = i ∧ 0 < shiftStepUpdateReset marker timeStep base i st.1 j then
       ((st.2 j i').inter noLabelFlag).union marker
     else st.2 j i')

/-- Scan state (countdowns, shifted stream flags) after processing the
first `n` frames; the shifted flags start as the base layout's copy. -/
def scanAfter (marker : MinibatchFlags) (timeStep : Int) (base : MBLayoutM) :
    Nat → (Nat → Int) × (Nat → Nat → MinibatchFlags)
  | 0 => (fun _ => 0, base.streamFlags)
  | n + 1 => shiftStep marker timeStep base (scanAfter marker timeStep base n) n

/-- The shifted per-stream flags `SetMBLayout` builds for `timeStep > 1`. -/
def buildShiftedFlags (marker : MinibatchFlags) (timeStep : Int) (base : MBLayoutM) :
    Nat → Nat → MinibatchFlags :=
  (scanAfter marker timeStep base base.numFrames).2

/-- `DelayedValueNodeBase::SetMBLayout`: rejects `timeStep ≤ 0` before
touching any layout state; otherwise installs the shifted copy (modified by
the scan when `timeStep > 1`, an unmodified copy when `timeStep = 1`).
The frame summary flags are kept as copied: the source line updating them
is commented out. -/
def setMBLayout (marker : MinibatchFlags) (timeStep : Int) (base : MBLayoutM) :
    Except String MBLayoutM :=
  if timeStep ≤ 0 then .error "timeStep should be 1 or larger"
  else if 1 < timeStep then
    .ok { base with streamFlags := buildShiftedFlags marker timeStep base }
  else .ok base

/-- `DelayedValueNodeBase::SetTimeStep` (RecurrentNodes.h 310-315): rejects
non-positive step values, stores positive ones. -/
def setTimeStep (val : Int) : Except String Int :=
  if val ≤ 0 then .error "timeStep must be > 0."
  else .ok val

/-- Countdown value seen at frame `i` (after the frame's update, before the
post-decrement): this is what decides whether stream `j` is flagged at `i`. -/
def resetAt (marker : MinibatchFlags) (timeStep : Int) (base : MBLayoutM)
    (i : Nat) : Nat → Int :=
  shiftStepUpdateReset marker timeStep base i (scanAfter marker timeStep base i).1

lemma resetAt_cases (marker : MinibatchFlags) (S : Int) (base : MBLayoutM) (i j : Nat) :
    resetAt marker S base i j =
      if (base.framePacking i).overlaps (marker.union noFeatureFlag) = true then
        (if (base.streamFlags j i).overlaps marker = true then S
         else if (base.streamFlags j i).overlaps noFeatureFlag = true then 0
         else (scanAfter marker S base i).1 j)
      else (scanAfter marker S base i).1 j := by
  unfold resetAt shiftStepUpdateReset
  split <;> rfl

lemma scanAfter_reset_succ (marker : MinibatchFlags) (S : Int) (base : MBLayoutM)
    (n j : Nat) :
    (scanAfter marker S base (n + 1)).1 j = resetAt marker S base n j - 1 := rfl

lemma scanAfter_flags_ge (marker : MinibatchFlags) (S : Int) (base : MBLayoutM) :
    ∀ n j i, n ≤ i → (scanAfter marker S base n).2 j i = base.streamFlags j i := by
  intro n
  induction n with
  | zero => intro j i _; rfl
  | succ m ih =>
    intro j i hi
    show (shiftStep marker S base (scanAfter marker S base m) m).2 j i = _
    unfold shiftStep
    dsimp only
    rw [if_neg (fun hc => absurd hc.1 (by omega))]
    exact ih j i (by omega)

lemma scanAfter_flags_lt (marker : MinibatchFlags) (S : Int) (base : MBLayoutM) (j : Nat) :
    ∀ n i, i < n →
      (scanAfter marker S base n).2 j i = (scanAfter marker S base (i + 1)).2 j i := by
  intro n
  induction n with
  | zero => intro i hi; omega
  | succ m ih =>
    intro i hi
    by_cases hm : i = m
    · subst hm; rfl
    · show (shiftStep marker S base (scanAfter marker S base m) m).2 j i = _
      unfold shiftStep
      dsimp only
      rw [if_neg (fun hc => hm hc.1)]
      exact ih i (by omega)

lemma buildShiftedFlags_eq (marker : MinibatchFlags) (S : Int) (base : MBLayoutM)
    (j i : Nat) (hi : i < base.numFrames) :
    buildShiftedFlags marker S base j i =
      if 0 < resetAt marker S base i j then
        ((base.streamFlags j i).inter noLabelFlag).union marker
      else base.streamFlags j i := by
  unfold buildShiftedFlags
  rw [scanAfter_flags_lt marker S base j base.numFrames i hi]
  show (shiftStep marker S base (scanAfter marker S base i) i).2 j i = _
  unfold shiftStep
  dsimp only
  by_cases h : 0 < resetAt marker S base i j
  · rw [if_pos ⟨rfl, h⟩, if_pos h, scanAfter_flags_ge marker S base i j i (le_refl i)]
  · rw [if_neg (fun hc => h hc.2), if_neg h]
    exact scanAfter_flags_ge marker S base i j i (le_refl i)

lemma resetAt_lower (marker : MinibatchFlags) (S : Int) (base : MBLayoutM) (j k : Nat)
    (hwf : base.wf) (hj : j < base.numStreams)
    (hmk : (base.streamFlags j k).overlaps marker = true) :
    ∀ d : Nat, k + d < base.numFrames →
      (∀ m, k < m → m ≤ k + d →
        ¬ ((base.streamFlags j m).overlaps noFeatureFlag = true ∧
           (base.streamFlags j m).overlaps marker = false)) →
      S - d ≤ resetAt marker S base (k + d) j := by
  intro d
  induction d with
  | zero =>
    intro hin _
    have hpack : (base.framePacking k).overlaps (marker.union noFeatureFlag) = true :=
      overlaps_union_left _ _ _
        (contains_overlaps _ _ _ (hwf j k hj (by omega)) hmk)
    rw [show k + 0 = k from rfl, resetAt_cases, if_pos hpack, if_pos hmk]
    omega
  | succ d ih =>
    intro hin hstop
    have hih : S - d ≤ resetAt marker S base (k + d) j :=
      ih (by omega) (fun m h1 h2 => hstop m h1 (by omega))
    have hrec : (scanAfter marker S base (k + (d + 1))).1 j
        = resetAt marker S base (k + d) j - 1 :=
      scanAfter_reset_succ marker S base (k + d) j
    rw [resetAt_cases]
    by_cases hfp : (base.framePacking (k + (d + 1))).overlaps
        (marker.union noFeatureFlag) = true
    · rw [if_pos hfp]
      by_cases hm : (base.streamFlags j (k + (d + 1))).overlaps marker = true
      · rw [if_pos hm]; omega
      · have hnf : ¬ (base.streamFlags j (k + (d + 1))).overlaps noFeatureFlag = true := by
          intro hx
          exact hstop (k + (d + 1)) (by omega) (le_refl _)
            ⟨hx, Bool.not_eq_true _ ▸ (by simpa using hm)⟩
        rw [if_neg hm, if_neg hnf, hrec]
        omega
    · rw [if_neg hfp, hrec]
      omega

lemma resetAt_nonpos (marker : MinibatchFlags) (S : Int) (base : MBLayoutM) (j m : Nat)
    (hwf : base.wf) (hj : j < base.numStreams)
    (hnf : (base.streamFlags j m).overlaps noFeatureFlag = true) :
    ∀ d : Nat, m + d < base.numFrames →
      (∀ n, m ≤ n → n ≤ m + d → (base.streamFlags j n).overlaps marker = false) →
      resetAt marker S base (m + d) j ≤ 0 := by
  intro d
  induction d with
  | zero =>
    intro hin hmk
    have hpack : (base.framePacking m).overlaps (marker.union noFeatureFlag) = true :=
      overlaps_union_right _ _ _
        (contains_overlaps _ _ _ (hwf j m hj (by omega)) hnf)
    have hm0 : ¬ (base.streamFlags j m).overlaps marker = true := by
      rw [hmk m (le_refl m) (by omega)]; exact Bool.false_ne_true
    rw [show m + 0 = m from rfl, resetAt_cases, if_pos hpack, if_neg hm0, if_pos hnf]
  | succ d ih =>
    intro hin hmk
    have hih : resetAt marker S base (m + d) j ≤ 0 :=
      ih (by omega) (fun n h1 h2 => hmk n h1 (by omega))
    have hrec : (scanAfter marker S base (m + (d + 1))).1 j
        = resetAt marker S base (m + d) j - 1 :=
      scanAfter_reset_succ marker S base (m + d) j
    have hmx : ¬ (base.streamFlags j (m + (d + 1))).overlaps marker = true := by
      rw [hmk (m + (d + 1)) (by omega) (le_refl _)]; exact Bool.false_ne_true
    rw [resetAt_cases]
    by_cases hfp : (base.framePacking (m + (d + 1))).overlaps
        (marker.union noFeatureFlag) = true
    · rw [if_pos hfp, if_neg hmx]
      by_cases hx : (base.streamFlags j (m + (d + 1))).overlaps noFeatureFlag = true
      · rw [if_pos hx]
      · rw [if_neg hx, hrec]; omega
    · rw [if_neg hfp, hrec]; omega

/-! ## Claim C3: the shifted-layout scan -/

/-- Counterexample base layout for claim C3: one stream, four frames, a
boundary marker at frame 1 and nothing else. -/
def exC3Base : MBLayoutM :=
  ⟨1, 4, fun _ i => if i = 1 then sequenceStart else flagNone,
   fun i => if i = 1 then sequenceStart else flagNone⟩

/-- Counterexample for claim C3 as stated: for the direction −1 instance
(`PastValueNode`, marker `SequenceStart`) with `S = 2` and a boundary at
frame `k = 1`, the claim requires frames `k−S+1..k = {0, 1}` to carry the
marker; the scan instead forces frames `k..k+S−1 = {1, 2}`: frame 0 stays
unflagged and frame 2 is forced, because `SetMBLayout` always scans and
flags forward in time regardless of the node's direction. -/
theorem claimC3_counterexample :
    setMBLayout sequenceStart 2 exC3Base
      = .ok { exC3Base with streamFlags := buildShiftedFlags sequenceStart 2 exC3Base } ∧
    (exC3Base.streamFlags 0 1).overlaps sequenceStart = true ∧
    (buildShiftedFlags sequenceStart 2 exC3Base 0 0).seqStart = false ∧
    (buildShiftedFlags sequenceStart 2 exC3Base 0 2).seqStart = true :=
  ⟨rfl, by decide, by decide, by decide⟩

/-- Claim C3 (amended): for every base layout and `timeStep S > 1`,
`SetMBLayout` builds the shifted layout by the forward scan for *both*
directions: a stream carrying the boundary marker at frame `k` has frames
`k..k+S−1` forced to carry the marker (preserving only the no-label
sub-flag), and the forcing stops immediately when a `NoFeature`/`NoInput`
frame resets that stream's countdown to zero, even if the countdown has
not elapsed. -/
theorem claimC3_amended_forwardForcing :
    (∀ (marker : MinibatchFlags) (S : Int) (base : MBLayoutM), 1 < S →
      setMBLayout marker S base
        = .ok { base with streamFlags := buildShiftedFlags marker S base }) ∧
    (∀ (marker : MinibatchFlags) (S : Int) (base : MBLayoutM) (j k i : Nat),
      base.wf → j < base.numStreams →
      (base.streamFlags j k).overlaps marker = true →
      k ≤ i → (i : Int) < k + S → i < base.numFrames →
      (∀ m, k < m → m ≤ i →
        ¬ ((base.streamFlags j m).overlaps noFeatureFlag = true ∧
           (base.streamFlags j m).overlaps marker = false)) →
      buildShiftedFlags marker S base j i
        = ((base.streamFlags j i).inter noLabelFlag).union marker) ∧
    (∀ (marker : MinibatchFlags) (S : Int) (base : MBLayoutM) (j m i : Nat),
      base.wf → j < base.numStreams → m ≤ i → i < base.numFrames →
      (base.streamFlags j m).overlaps noFeatureFlag = true →
      (∀ n, m ≤ n → n ≤ i → (base.streamFlags j n).overlaps marker = false) →
      buildShiftedFlags marker S base j i = base.streamFlags j i) := by
  refine ⟨?_, ?_, ?_⟩
  · intro marker S base hS
    unfold setMBLayout
    rw [if_neg (by omega), if_pos hS]
  · intro marker S base j k i hwf hj hmk hk hiS hin hstop
    obtain ⟨d, rfl⟩ : ∃ d, i = k + d := ⟨i - k, by omega⟩
    have hlow := resetAt_lower marker S base j k hwf hj hmk d hin hstop
    have hd : ((k + d : Nat) : Int) < k + S := hiS
    rw [buildShiftedFlags_eq marker S base j (k + d) hin,
      if_pos (by push_cast at hd; omega)]
  · intro marker S base j m i hwf hj hm hin hnf hmk
    obtain ⟨d, rfl⟩ : ∃ d, i = m + d := ⟨i - m, by omega⟩
    have hnp := resetAt_nonpos marker S base j m hwf hj hnf d hin hmk
    rw [buildShiftedFlags_eq marker S base j (m + d) hin, if_neg (by omega)]

/-- Witness base layout for the amended claim C3: one stream, five frames,
boundary marker at frame 0, a `NoInput` frame at frame 2. -/
def exC3WBase : MBLayoutM :=
  ⟨1, 5, fun _ i => if i = 0 then sequenceStart else if i = 2 then noInputFlag else flagNone,
   fun i => if i = 0 then sequenceStart else if i = 2 then noInputFlag else flagNone⟩

/-- Witness for the amended claim C3 with `S = 3`: the boundary at frame 0
forces frame 1, the `NoInput` frame 2 stops the forcing (its countdown had
one step left), and frame 3 keeps its base flag. -/
theorem claimC3_amended_witness :
    ((1 : Int) < 3 ∧ (exC3WBase.streamFlags 0 0).overlaps sequenceStart = true ∧
      (exC3WBase.streamFlags 0 2).overlaps noFeatureFlag = true) ∧
    setMBLayout sequenceStart 3 exC3WBase
      = .ok { exC3WBase with streamFlags := buildShiftedFlags sequenceStart 3 exC3WBase } ∧
    buildShiftedFlags sequenceStart 3 exC3WBase 0 1
      = ((exC3WBase.streamFlags 0 1).inter noLabelFlag).union sequenceStart ∧
    buildShiftedFlags sequenceStart 3 exC3WBase 0 3 = exC3WBase.streamFlags 0 3 :=
  ⟨⟨by decide, by decide, by decide⟩,
    claimC3_amended_forwardForcing.1 sequenceStart 3 exC3WBase (by decide),
    claimC3_amended_forwardForcing.2.1 sequenceStart 3 exC3WBase 0 0 1
      (fun j i hj hi => by
        have hi5 : i < 5 := hi
        have h5 : i = 0 ∨ i = 1 ∨ i = 2 ∨ i = 3 ∨ i = 4 := by omega
        rcases h5 with h | h | h | h | h <;> subst h <;> rfl)
      (by decide) (by decide) (by decide) (by decide) (by decide)
      (fun m h1 h2 => by
        have hm1 : m = 1 := by omega
        subst hm1; decide),
    claimC3_amended_forwardForcing.2.2 sequenceStart 3 exC3WBase 0 2 3
      (fun j i hj hi => by
        have hi5 : i < 5 := hi
        have h5 : i = 0 ∨ i = 1 ∨ i = 2 ∨ i = 3 ∨ i = 4 := by omega
        rcases h5 with h | h | h | h | h <;> subst h <;> rfl)
      (by decide) (by decide) (by decide) (by decide)
      (fun n h1 h2 => by
        have hn : n = 2 ∨ n = 3 := by omega
        rcases hn with h | h <;> subst h <;> decide)⟩

/-! ## Claim C9: rejection of non-positive step sizes -/

/-- Claim C9: installing a layout via `SetMBLayout` with `timeStep ≤ 0`
fails with the fatal configuration error before any layout state is built,
and `SetTimeStep` rejects every non-positive value with a fatal error while
accepting positive ones. -/
theorem claimC9_timeStepValidation :
    (∀ (marker : MinibatchFlags) (timeStep : Int) (base : MBLayoutM), timeStep ≤ 0 →
      setMBLayout marker timeStep base = .error "timeStep should be 1 or larger")
    ∧ (∀ val : Int, val ≤ 0 → setTimeStep val = .error "timeStep must be > 0.")
    ∧ (∀ val : Int, 0 < val → setTimeStep val = .ok val) := by
  refine ⟨?_, ?_, ?_⟩
  · intro marker timeStep base h
    unfold setMBLayout
    rw [if_pos h]
  · intro val h
    unfold setTimeStep
    rw [if_pos h]
  · intro val h
    unfold setTimeStep
    rw [if_neg (by omega)]

/-- Witness for claim C9 at `timeStep = 0` and `val = 0, 3`. -/
theorem claimC9_witness :
    ((0 : Int) ≤ 0 ∧ (0 : Int) < 3) ∧
    setMBLayout sequenceStart 0 exC3Base = .error "timeStep should be 1 or larger" ∧
    setTimeStep 0 = .error "timeStep must be > 0." ∧
    setTimeStep 3 = .ok 3 :=
  ⟨⟨by decide, by decide⟩,
    claimC9_timeStepValidation.1 sequenceStart 0 exC3Base (by decide),
    claimC9_timeStepValidation.2.1 0 (by decide),
    claimC9_timeStepValidation.2.2 3 (by decide)⟩

/-! ## LSTMNode (RecurrentNodes.h 499-1613)

The node state carries the persisted scalars, the forward/backward buffers
and the five inputs (observation + four gate-weight blocks).  The
history/error-preparation routines contain `#if 1` blocks that raise the
placeholder `LogicError("...: finish this")`; everything behind those
faults is unreachable and therefore not modelled further. -/

set_option linter.unusedVariables false

structure LSTMState where
  inputDim : Nat
  outputDim : Nat
  defaultState : ElemType
  functionValues : MatQ
  gradientValues : MatQ
  state : MatQ
  pastState : MatQ
  pastOutput : MatQ
  grdToObs : MatQ
  grdToInputGate : MatQ
  grdToForgetGate : MatQ
  grdToOutputGate : MatQ
  grdToCellWgt : MatQ
  inputs : Fin 5 → MatQ
  inputGrads : Fin 5 → MatQ
  gradientComputed : Bool
  useErrorsFromFutureMinibatch : Bool
  obsErrorFromFutureMinibatch : MatQ
  stateErrorFromFutureMinibatch : MatQ
  numParallel : Nat
  layout : MBLayoutM

/-- `LSTMNode::GetSegInfo` (lines 917-930): bounds-checked read of the
boundary flag of `(stream, frame t/numParallel)`. -/
def getSegInfo (numParallelSequences nTInput : Nat) (layout : MBLayoutM)
    (t streamid : Nat) : Except String MinibatchFlags :=
  if numParallelSequences ≤ streamid then
    .error "GetSegInfo: stream id is larger than the number of streams"
  else if nTInput ≤ t then
    .error "GetSegInfo: time is larger than the total number of observations"
  else .ok (layout.streamFlags streamid (t / numParallelSequences))

/-- `LSTMNode::PrepareHistory` (lines 1052-1112): after the slice resizes,
the row-count consistency check can fault; every surviving call then hits
the `#if 1` placeholder `LogicError("PrepareHistory: finish this")`. -/
def prepareHistory (timeIdxInSeq : Nat)
    (slicePrevOutput slicePrevState output state pastOutput pastState : MatQ)
    (nsamples : Nat) (initStateValue : ElemType) (sentenceBegin : MatQ) :
    Except String Unit :=
  if sentenceBegin.nrows ≠ nsamples then
    .error "Number of rows should be the same as the number of data streams"
  else .error "PrepareHistory: finish this"

/-- `LSTMNode::PrepareErrors` (lines 1174-1206): unconditionally raises the
`#if 1` placeholder fault. -/
def prepareErrors (timeIdxInSeq : Nat) (errors stateError : MatQ)
    (nsamples : Nat) (sentenceBegin : MatQ) : Except String Unit :=
  .error "PrepareErrors: finish this"

/-- The `GetSegInfo` probes `PrepareThisErrorsBeforeBackProp` performs for
each stream when cross-minibatch errors are enabled (lines 1132-1145);
comparisons are on the C++ `int` values `utt_t` and `total_utt_t - 1`. -/
def ptebpChecks (useErrors : Bool) (numParallel nTInput : Nat) (layout : MBLayoutM)
    (timeIdxInSeq nT nsamples : Nat) : Except String Unit :=
  if useErrors then
    (List.range nsamples).foldl
      (fun acc uttId =>
        match acc with
        | .error e => .error e
        | .ok _ =>
          match getSegInfo numParallel nTInput layout timeIdxInSeq uttId with
          | .error e => .error e
          | .ok g1 =>
            if g1 = flagNone ∧
                ((timeIdxInSeq / nsamples : Nat) : Int) = ((nT / nsamples : Nat) : Int) - 1 then
              .ok ()
            else if ((timeIdxInSeq / nsamples : Nat) : Int) < ((nT / nsamples : Nat) : Int) - 1 ∧
                g1 = flagNone then
              match getSegInfo numParallel nTInput layout (timeIdxInSeq + nsamples) uttId with
              | .error e => .error e
              | .ok _ => .ok ()
            else .ok ())
      (.ok ())
  else .ok ()

/-- `LSTMNode::PrepareThisErrorsBeforeBackProp` (lines 1115-1171): adds the
carried errors, optionally probes `GetSegInfo` (which can fault), then hits
the `#if 1` placeholder `LogicError`. -/
def prepareThisErrorsBeforeBackProp (useErrors : Bool) (numParallel nTInput : Nat)
    (layout : MBLayoutM) (timeIdxInSeq nT : Nat)
    (error stateError grdToPrevOutput grdToPrevState obsErrFut stateErrFut : MatQ)
    (nsamples : Nat) (sentenceBegin : MatQ) : Except String Unit :=
  match ptebpChecks useErrors numParallel nTInput layout timeIdxInSeq nT nsamples with
  | .error e => .error e
  | .ok _ => .error "PrepareThisErrorsBeforeBackProp: finish this"

/-- The cache matrix `ComputeInputPartial` accumulates into input `i`
(the `if (inputIndex == k)` chain of lines 685-723). -/
def lstmCacheOf (s : LSTMState) (i : Fin 5) : MatQ :=
  if (i : Nat) = 0 then s.grdToObs
  else if (i : Nat) = 1 then s.grdToInputGate
  else if (i : Nat) = 2 then s.grdToForgetGate
  else if (i : Nat) = 3 then s.grdToOutputGate
  else s.grdToCellWgt

/-- The guarded backward sweep of `LSTMNode::ComputeInputPartial`
(lines 576-683): skipped when `m_GradientComputed` is already set;
otherwise checks the gradient/function dimension match, resets the per-input
gradient caches to zero, and runs the reverse frame loop — whose first
iteration calls `PrepareThisErrorsBeforeBackProp` and therefore faults, so
the loop completes (setting `m_GradientComputed`) only when it has no
iterations (`nT < numParallel`). -/
def lstmSweep (s : LSTMState) : Except String LSTMState :=
  if s.gradientComputed then .ok s
  else if s.functionValues.ncols ≠ s.gradientValues.ncols ∨
      s.functionValues.nrows ≠ s.gradientValues.nrows then
    .error "LSTMNode::GradientValue size doesn't match to the function value size"
  else if s.numParallel ≤ (s.inputs 0).ncols then
    match prepareThisErrorsBeforeBackProp s.useErrorsFromFutureMinibatch s.numParallel
        (s.inputs 0).ncols s.layout ((s.inputs 0).ncols - s.numParallel)
        (s.inputs 0).ncols s.gradientValues
        (matZero (s.inputs 1).nrows s.numParallel)
        (matZero (s.inputs 1).nrows s.numParallel)
        (matZero (s.inputs 1).nrows s.numParallel)
        s.obsErrorFromFutureMinibatch s.stateErrorFromFutureMinibatch s.numParallel
        (matConst s.layout.numStreams s.layout.numFrames 0) with
    | .error e => .error e
    | .ok _ =>
      .error "LSTM backward loop beyond the PrepareThisErrorsBeforeBackProp fault is unreachable"
  else
    .ok { s with
      grdToObs := matZero (s.inputs 0).nrows (s.inputs 0).ncols,
      grdToInputGate := matZero (s.inputs 1).nrows (s.inputs 1).ncols,
      grdToForgetGate := matZero (s.inputs 2).nrows (s.inputs 2).ncols,
      grdToOutputGate := matZero (s.inputs 3).nrows (s.inputs 3).ncols,
      grdToCellWgt := matZero (s.inputs 4).nrows (s.inputs 4).ncols,
      obsErrorFromFutureMinibatch := matZero (s.inputs 1).nrows s.numParallel,
      stateErrorFromFutureMinibatch := matZero (s.inputs 1).nrows s.numParallel,
      gradientComputed := true }

/-- The unguarded tail of `ComputeInputPartial` (lines 685-723): add the
cached gradient of input `inputIndex` into that input's gradient
(`SetValue` when it is empty, `+=` otherwise). -/
def lstmAccumulate (s : LSTMState) (inputIndex : Nat) : LSTMState :=
  { s with inputGrads := fun j =>
      if (j : Nat) = inputIndex then
        (if (s.inputGrads j).hasNoElements = true then lstmCacheOf s j
         else (s.inputGrads j).addMat (lstmCacheOf s j))
      else s.inputGrads j }

/-- `LSTMNode::ComputeInputPartial` (lines 567-728): validates the input
index, runs the guarded backward sweep, then accumulates the cached
gradient of input `inputIndex` into that input's gradient — on every call,
guarded or not. -/
def computeInputPartial (inputIndex : Nat) (s : LSTMState) : Except String LSTMState :=
  if 4 < inputIndex then .error "LSTM operation only takes five inputs."
  else
    match lstmSweep s with
    | .error e => .error e
    | .ok s2 => .ok (lstmAccumulate s2 inputIndex)

/-- `LSTMNode::EvaluateThisNode` (lines 958-1038): resizes and
sentinel-fills the forward buffers, initializes `m_PastState` /
`m_PastOutput` when absent, then runs the frame loop — whose first
iteration calls `PrepareHistory` and therefore faults whenever there is at
least one frame; an empty minibatch completes and clears
`m_GradientComputed`.  (The sentinel fills are not tracked: every cell is
either behind the fault or part of an empty buffer.) -/
def lstmEvaluateThisNode (s : LSTMState) : Except String LSTMState :=
  let nT := (s.inputs 0).ncols
  let outputDim := (s.inputs 1).nrows
  let pastState :=
    if s.pastState.hasNoElements = true ∨ s.pastState.ncols ≠ s.numParallel then
      matConst outputDim s.numParallel s.defaultState
    else s.pastState
  let pastOutput :=
    if s.pastOutput.hasNoElements = true ∨ s.pastOutput.ncols ≠ s.numParallel then
      { nrows := outputDim, ncols := s.numParallel, entry := s.pastOutput.entry }
    else s.pastOutput
  if 0 < nT then
    match prepareHistory 0 (matZero outputDim s.numParallel)
        (matZero outputDim s.numParallel) s.functionValues s.state pastOutput pastState
        s.numParallel s.defaultState
        (matConst s.layout.numStreams s.layout.numFrames 0) with
    | .error e => .error e
    | .ok _ => .error "LSTM forward loop beyond the PrepareHistory fault is unreachable"
  else
    .ok { s with
      pastState := pastState,
      pastOutput := pastOutput,
      functionValues := matZero outputDim nT,
      state := matZero outputDim nT,
      gradientComputed := false }

/-! ## Claim C4: the disabled history/error-preparation routines -/

lemma prepareHistory_isOk_false (tIdx : Nat) (a b c d e f : MatQ) (ns : Nat)
    (iv : ElemType) (sb : MatQ) :
    (prepareHistory tIdx a b c d e f ns iv sb).isOk = false := by
  unfold prepareHistory
  split <;> rfl

lemma prepareThisErrorsBeforeBackProp_isOk_false (ue : Bool) (np nti : Nat)
    (L : MBLayoutM) (tIdx nT : Nat) (e1 e2 e3 e4 e5 e6 : MatQ) (ns : Nat) (sb : MatQ) :
    (prepareThisErrorsBeforeBackProp ue np nti L tIdx nT e1 e2 e3 e4 e5 e6 ns sb).isOk
      = false := by
  unfold prepareThisErrorsBeforeBackProp
  cases h : ptebpChecks ue np nti L tIdx nT ns <;> rfl

/-- Counterexample for claim C4 as stated: `PrepareHistory` called with a
boundary matrix whose row count (2) differs from the stream count (1)
raises the row-count `LogicError`, not the "finish this" placeholder — so
the placeholder is not raised for *every* input. -/
theorem claimC4_counterexample :
    prepareHistory 0 (matZero 1 1) (matZero 1 1) (matZero 1 1) (matZero 1 1)
        (matZero 1 1) (matZero 1 1) 1 0 (matZero 2 1)
      = .error "Number of rows should be the same as the number of data streams" ∧
    ¬ (prepareHistory 0 (matZero 1 1) (matZero 1 1) (matZero 1 1) (matZero 1 1)
        (matZero 1 1) (matZero 1 1) 1 0 (matZero 2 1)
      = .error "PrepareHistory: finish this") :=
  ⟨rfl, by intro h; simp [prepareHistory, matZero, matConst] at h⟩

/-- Claim C4 (amended): every call to `PrepareHistory`, `PrepareErrors` or
`PrepareThisErrorsBeforeBackProp` raises a fatal error — the placeholder
"finish this" fault whenever the routine's preliminary consistency checks
pass (`PrepareErrors` has none, `PrepareHistory` checks the boundary-matrix
row count, `PrepareThisErrorsBeforeBackProp` may first fault inside its
`GetSegInfo` probes when cross-minibatch errors are enabled) — so no call
to these routines ever completes normally. -/
theorem claimC4_amended_preparationNeverCompletes :
    (∀ (tIdx : Nat) (a b c d e f : MatQ) (ns : Nat) (iv : ElemType) (sb : MatQ),
      (prepareHistory tIdx a b c d e f ns iv sb).isOk = false)
    ∧ (∀ (tIdx : Nat) (a b c d e f : MatQ) (ns : Nat) (iv : ElemType) (sb : MatQ),
      sb.nrows = ns →
      prepareHistory tIdx a b c d e f ns iv sb = .error "PrepareHistory: finish this")
    ∧ (∀ (tIdx : Nat) (errs se : MatQ) (ns : Nat) (sb : MatQ),
      prepareErrors tIdx errs se ns sb = .error "PrepareErrors: finish this")
    ∧ (∀ (ue : Bool) (np nti : Nat) (L : MBLayoutM) (tIdx nT : Nat)
        (e1 e2 e3 e4 e5 e6 : MatQ) (ns : Nat) (sb : MatQ),
      (prepareThisErrorsBeforeBackProp ue np nti L tIdx nT e1 e2 e3 e4 e5 e6 ns sb).isOk
        = false)
    ∧ (∀ (np nti : Nat) (L : MBLayoutM) (tIdx nT : Nat)
        (e1 e2 e3 e4 e5 e6 : MatQ) (ns : Nat) (sb : MatQ),
      prepareThisErrorsBeforeBackProp false np nti L tIdx nT e1 e2 e3 e4 e5 e6 ns sb
        = .error "PrepareThisErrorsBeforeBackProp: finish this") := by
  refine ⟨prepareHistory_isOk_false, ?_, ?_, prepareThisErrorsBeforeBackProp_isOk_false, ?_⟩
  · intro tIdx a b c d e f ns iv sb h
    unfold prepareHistory
    rw [if_neg (by omega)]
  · intro tIdx errs se ns sb
    rfl
  · intro np nti L tIdx nT e1 e2 e3 e4 e5 e6 ns sb
    rfl

/-- Witness for the amended claim C4 at concrete inputs with matching row
counts and cross-minibatch errors disabled. -/
theorem claimC4_amended_witness :
    ((matZero 1 1).nrows = 1) ∧
    (prepareHistory 0 (matZero 1 1) (matZero 1 1) (matZero 1 1) (matZero 1 1)
        (matZero 1 1) (matZero 1 1) 1 0 (matZero 1 1)).isOk = false ∧
    prepareHistory 0 (matZero 1 1) (matZero 1 1) (matZero 1 1) (matZero 1 1)
        (matZero 1 1) (matZero 1 1) 1 0 (matZero 1 1)
      = .error "PrepareHistory: finish this" ∧
    prepareErrors 0 (matZero 1 1) (matZero 1 1) 1 (matZero 1 1)
      = .error "PrepareErrors: finish this" ∧
    (prepareThisErrorsBeforeBackProp false 1 3 exC3Base 0 3 (matZero 1 1) (matZero 1 1)
        (matZero 1 1) (matZero 1 1) (matZero 1 1) (matZero 1 1) 1 (matZero 1 1)).isOk
      = false ∧
    prepareThisErrorsBeforeBackProp false 1 3 exC3Base 0 3 (matZero 1 1) (matZero 1 1)
        (matZero 1 1) (matZero 1 1) (matZero 1 1) (matZero 1 1) 1 (matZero 1 1)
      = .error "PrepareThisErrorsBeforeBackProp: finish this" :=
  ⟨rfl,
    claimC4_amended_preparationNeverCompletes.1 0 (matZero 1 1) (matZero 1 1) (matZero 1 1)
      (matZero 1 1) (matZero 1 1) (matZero 1 1) 1 0 (matZero 1 1),
    claimC4_amended_preparationNeverCompletes.2.1 0 (matZero 1 1) (matZero 1 1)
      (matZero 1 1) (matZero 1 1) (matZero 1 1) (matZero 1 1) 1 0 (matZero 1 1) rfl,
    claimC4_amended_preparationNeverCompletes.2.2.1 0 (matZero 1 1) (matZero 1 1) 1
      (matZero 1 1),
    claimC4_amended_preparationNeverCompletes.2.2.2.1 false 1 3 exC3Base 0 3 (matZero 1 1)
      (matZero 1 1) (matZero 1 1) (matZero 1 1) (matZero 1 1) (matZero 1 1) 1 (matZero 1 1),
    claimC4_amended_preparationNeverCompletes.2.2.2.2 1 3 exC3Base 0 3 (matZero 1 1)
      (matZero 1 1) (matZero 1 1) (matZero 1 1) (matZero 1 1) (matZero 1 1) 1 (matZero 1 1)⟩

/-! ## Claim C5: the LSTM reference scenario (LSTMNode::UnitTest, 1336-1440) -/

/-- The `LSTMNode::UnitTest` reference scenario: input dim 2, hidden/output
dim 3, 3 frames, 1 stream, `SequenceStart` injected at frame 1, all
weights and inputs 0.1, default state 0. -/
def lstmUnitTestState : LSTMState where
  inputDim := 2
  outputDim := 3
  defaultState := 0
  functionValues := matZero 3 3
  gradientValues := matZero 3 3
  state := matZero 3 3
  pastState := matZero 0 0
  pastOutput := matZero 0 0
  grdToObs := matZero 0 0
  grdToInputGate := matZero 0 0
  grdToForgetGate := matZero 0 0
  grdToOutputGate := matZero 0 0
  grdToCellWgt := matZero 0 0
  inputs := fun j =>
    if (j : Nat) = 0 then matConst 2 3 (1 / 10)
    else if (j : Nat) = 4 then matConst 3 6 (1 / 10)
    else matConst 3 7 (1 / 10)
  inputGrads := fun _ => matZero 0 0
  gradientComputed := false
  useErrorsFromFutureMinibatch := false
  obsErrorFromFutureMinibatch := matZero 0 0
  stateErrorFromFutureMinibatch := matZero 0 0
  numParallel := 1
  layout := ⟨1, 3, fun _ i => if i = 1 then sequenceStart else flagNone,
             fun i => if i = 1 then sequenceStart else flagNone⟩

/-- Claim C5 evidence: on the reference scenario, forward evaluation never
produces the claimed outputs — the frame loop's first call to
`PrepareHistory` raises the placeholder "finish this" fault, aborting
`EvaluateThisNode` before any output column is written. -/
theorem claimC5_forwardFaultsBeforeOutput :
    lstmEvaluateThisNode lstmUnitTestState = .error "PrepareHistory: finish this" := rfl

/-! ## Claim C6: repeated ComputeInputPartial within one minibatch -/

/-- Extract the state of a successful call (fallback `d` otherwise). -/
def getOkState (d : LSTMState) : Except String LSTMState → LSTMState
  | .ok s => s
  | .error _ => d

lemma isOk_getOkState (d : LSTMState) (e : Except String LSTMState)
    (h : e.isOk = true) : e = .ok (getOkState d e) := by
  cases e with
  | error a => simp [Except.isOk, Except.toBool] at h
  | ok a => rfl

lemma lstmSweep_ok_flag (s s' : LSTMState) (h : lstmSweep s = .ok s') :
    s'.gradientComputed = true := by
  unfold lstmSweep at h
  by_cases hf : s.gradientComputed = true
  · rw [if_pos hf] at h
    cases h
    exact hf
  · rw [if_neg hf] at h
    split at h
    · exact Except.noConfusion h
    · split at h
      · split at h <;> exact Except.noConfusion h
      · cases h
        rfl

lemma computeInputPartial_ok_flag (i : Nat) (s s' : LSTMState)
    (h : computeInputPartial i s = .ok s') : s'.gradientComputed = true := by
  unfold computeInputPartial at h
  split at h
  · exact Except.noConfusion h
  · cases hs : lstmSweep s with
    | error e => rw [hs] at h; exact Except.noConfusion h
    | ok s2 =>
      rw [hs] at h
      cases h
      exact lstmSweep_ok_flag s s2 hs

lemma computeInputPartial_flagTrue (i : Nat) (s : LSTMState)
    (hi : ¬ 4 < i) (hf : s.gradientComputed = true) :
    computeInputPartial i s = .ok (lstmAccumulate s i) := by
  unfold computeInputPartial lstmSweep
  rw [if_neg hi, if_pos hf]

lemma lstmAccumulate_entry (s : LSTMState) (k : Fin 5)
    (h2 : (s.inputGrads k).hasNoElements = false) (r c : Nat) :
    ((lstmAccumulate s (k : Nat)).inputGrads k).entry r c
      = (s.inputGrads k).entry r c + (lstmCacheOf s k).entry r c := by
  unfold lstmAccumulate
  dsimp only
  rw [if_pos rfl, if_neg (by rw [h2]; exact Bool.false_ne_true)]
  rfl

/-- An LSTM state within one minibatch whose backward sweep has already run
(`m_GradientComputed = true`) with a non-zero cached observation gradient. -/
def exC6State : LSTMState where
  inputDim := 1
  outputDim := 1
  defaultState := 0
  functionValues := matZero 1 1
  gradientValues := matZero 1 1
  state := matZero 1 1
  pastState := matZero 1 1
  pastOutput := matZero 1 1
  grdToObs := matConst 1 1 5
  grdToInputGate := matConst 1 1 5
  grdToForgetGate := matConst 1 1 5
  grdToOutputGate := matConst 1 1 5
  grdToCellWgt := matConst 1 1 5
  inputs := fun _ => matConst 1 1 (1 / 10)
  inputGrads := fun _ => matConst 1 1 1
  gradientComputed := true
  useErrorsFromFutureMinibatch := false
  obsErrorFromFutureMinibatch := matZero 1 1
  stateErrorFromFutureMinibatch := matZero 1 1
  numParallel := 1
  layout := ⟨1, 1, fun _ _ => flagNone, fun _ => flagNone⟩

/-- Counterexample for claim C6 as stated: with the
gradient-already-computed flag set and a non-zero cached gradient, a second
`ComputeInputPartial(0)` call (no intervening Evaluate) changes input 0's
accumulated gradient — the flag short-circuits only the backward sweep, not
the per-input `+=` accumulation, so the cached gradient is added again
(1 + 5 after the first call, 1 + 5 + 5 after the second). -/
theorem claimC6_counterexample :
    (computeInputPartial 0 exC6State).isOk = true ∧
    (computeInputPartial 0 (getOkState exC6State (computeInputPartial 0 exC6State))).isOk
      = true ∧
    ¬ ((getOkState exC6State
          (computeInputPartial 0
            (getOkState exC6State (computeInputPartial 0 exC6State)))).inputGrads 0).entry
          0 0
      = ((getOkState exC6State (computeInputPartial 0 exC6State)).inputGrads 0).entry 0 0 :=
  ⟨rfl, rfl, by show ¬ ((1 : ElemType) + 5 + 5 = 1 + 5); norm_num⟩

/-- Claim C6 (amended): within one minibatch (no intervening Evaluate), a
second `ComputeInputPartial(i)` call skips the backward sweep — that much
the gradient-already-computed flag short-circuits — but re-runs the
per-input accumulation, so input `i`'s gradient after the second call
equals its value after the first call *plus* the cached per-input gradient
(unchanged only when that cache is zero). -/
theorem claimC6_amended_secondCallAddsCache (s : LSTMState) (k : Fin 5)
    (h1 : (computeInputPartial (k : Nat) s).isOk = true)
    (h2 : ((getOkState s (computeInputPartial (k : Nat) s)).inputGrads k).hasNoElements
      = false) :
    (computeInputPartial (k : Nat)
        (getOkState s (computeInputPartial (k : Nat) s))).isOk = true ∧
    ∀ r c,
      ((getOkState s
          (computeInputPartial (k : Nat)
            (getOkState s (computeInputPartial (k : Nat) s)))).inputGrads k).entry r c
        = ((getOkState s (computeInputPartial (k : Nat) s)).inputGrads k).entry r c
          + (lstmCacheOf (getOkState s (computeInputPartial (k : Nat) s)) k).entry r c := by
  have hik : ¬ 4 < (k : Nat) := by have := k.isLt; omega
  have he1 : computeInputPartial (k : Nat) s
      = .ok (getOkState s (computeInputPartial (k : Nat) s)) :=
    isOk_getOkState s _ h1
  have hflag : (getOkState s (computeInputPartial (k : Nat) s)).gradientComputed = true :=
    computeInputPartial_ok_flag (k : Nat) s _ he1
  have he2 := computeInputPartial_flagTrue (k : Nat)
    (getOkState s (computeInputPartial (k : Nat) s)) hik hflag
  constructor
  · rw [he2]; rfl
  · intro r c
    rw [he2]
    exact lstmAccumulate_entry (getOkState s (computeInputPartial (k : Nat) s)) k h2 r c

/-- Witness for the amended claim C6 at the concrete state `exC6State`. -/
theorem claimC6_amended_witness :
    ((computeInputPartial ((0 : Fin 5) : Nat) exC6State).isOk = true ∧
      ((getOkState exC6State
          (computeInputPartial ((0 : Fin 5) : Nat) exC6State)).inputGrads 0).hasNoElements
        = false) ∧
    (computeInputPartial ((0 : Fin 5) : Nat)
        (getOkState exC6State (computeInputPartial ((0 : Fin 5) : Nat) exC6State))).isOk
      = true ∧
    ∀ r c,
      ((getOkState exC6State
          (computeInputPartial ((0 : Fin 5) : Nat)
            (getOkState exC6State
              (computeInputPartial ((0 : Fin 5) : Nat) exC6State)))).inputGrads 0).entry r c
        = ((getOkState exC6State
              (computeInputPartial ((0 : Fin 5) : Nat) exC6State)).inputGrads 0).entry r c
          + (lstmCacheOf
              (getOkState exC6State (computeInputPartial ((0 : Fin 5) : Nat) exC6State))
              0).entry r c :=
  ⟨⟨rfl, rfl⟩,
    (claimC6_amended_secondCallAddsCache exC6State 0 rfl rfl).1,
    (claimC6_amended_secondCallAddsCache exC6State 0 rfl rfl).2⟩

/-! ## Claim C10: save/load of the persisted scalar state
(`DelayedValueNodeBase::SaveToFile/LoadFromFile`, RecurrentNodes.h 69-93;
`LSTMNode::SaveToFile/LoadFromFile`, RecurrentNodes.h 526-539).
A model file is a typed scalar stream; `Base::SaveToFile`'s framing is
outside the core and not modelled. -/

inductive FileItem where
  | natF : Nat → FileItem
  | intF : Int → FileItem
  | elemF : ElemType → FileItem
deriving DecidableEq

/-- The scalar state a delayed-value node persists: `m_timeStep`, the
function-value dimensions, and `m_initialActivationValue`. -/
structure DelayedScalars where
  timeStep : Int
  rows : Nat
  cols : Nat
  initialActivationValue : ElemType
deriving DecidableEq

/-- Modelled from the spec: the model-format version constant
`CNTK_MODEL_VERSION_2` (external header), the version from which the
initial-activation constant is present in the file. -/
def CNTK_MODEL_VERSION_2 : Nat := 2

/-- `DelayedValueNodeBase::SaveToFile`: always writes the step, the
dimensions and the initial-activation constant. -/
def delayedSaveToFile (s : DelayedScalars) : List FileItem :=
  [.intF s.timeStep, .natF s.rows, .natF s.cols, .elemF s.initialActivationValue]

/-- `DelayedValueNodeBase::LoadFromFile`: reads the step and the dimensions
(resizing the buffers), and the initial-activation constant only for
`modelVersion ≥ CNTK_MODEL_VERSION_2` (older versions keep the node's
current constant). -/
def delayedLoadFromFile (modelVersion : Nat) (stream : List FileItem)
    (s₀ : DelayedScalars) : Option DelayedScalars :=
  match stream with
  | .intF ts :: .natF iRow :: .natF timeIdxInSeq :: rest =>
    if CNTK_MODEL_VERSION_2 ≤ modelVersion then
      match rest with
      | .elemF v :: _ => some ⟨ts, iRow, timeIdxInSeq, v⟩
      | _ => none
    else some ⟨ts, iRow, timeIdxInSeq, s₀.initialActivationValue⟩
  | _ => none

/-- The scalar state the LSTM node persists: `m_inputDim`, `m_outputDim`
and `m_DefaultState`. -/
structure LSTMScalars where
  inputDim : Nat
  outputDim : Nat
  defaultState : ElemType
deriving DecidableEq

/-- `LSTMNode::SaveToFile`: writes the dimensions and the default state. -/
def lstmSaveToFile (s : LSTMScalars) : List FileItem :=
  [.natF s.inputDim, .natF s.outputDim, .elemF s.defaultState]

/-- `LSTMNode::LoadFromFile`: reads the dimensions only when
`modelVersion == 2`, then the default state. -/
def lstmLoadFromFile (modelVersion : Nat) (stream : List FileItem)
    (s₀ : LSTMScalars) : Option LSTMScalars :=
  if modelVersion = 2 then
    match stream with
    | .natF a :: .natF b :: .elemF v :: _ => some ⟨a, b, v⟩
    | _ => none
  else
    match stream with
    | .elemF v :: _ => some { s₀ with defaultState := v }
    | _ => none

lemma delayed_saveLoad_roundTrip (ver : Nat) (s s₀ : DelayedScalars)
    (h : CNTK_MODEL_VERSION_2 ≤ ver) :
    delayedLoadFromFile ver (delayedSaveToFile s) s₀ = some s := by
  simp only [delayedSaveToFile, delayedLoadFromFile]
  rw [if_pos h]

lemma lstm_saveLoad_roundTrip (s s₀ : LSTMScalars) :
    lstmLoadFromFile 2 (lstmSaveToFile s) s₀ = some s := by
  simp only [lstmSaveToFile, lstmLoadFromFile]
  rw [if_pos trivial]

/-- Claim C10: saving a node's persisted scalar state and loading it back
with the same format version (the current one, `CNTK_MODEL_VERSION_2`:
the delayed-value loader accepts any version ≥ 2, the LSTM loader exactly
version 2) restores those scalars exactly, and forward evaluation on the
same input with the restored scalars is identical to evaluation with the
original ones, for both node kinds. -/
theorem claimC10_saveLoadPreservesForward :
    (∀ (ver : Nat) (s s₀ : DelayedScalars), CNTK_MODEL_VERSION_2 ≤ ver →
      delayedLoadFromFile ver (delayedSaveToFile s) s₀ = some s)
    ∧ (∀ s s₀ : LSTMScalars, lstmLoadFromFile 2 (lstmSaveToFile s) s₀ = some s)
    ∧ (∀ (ver : Nat) (s s₀ s' : DelayedScalars) (mNbr : Nat) (shifted : MBLayoutM)
        (fv da inp : MatQ), CNTK_MODEL_VERSION_2 ≤ ver →
      delayedLoadFromFile ver (delayedSaveToFile s) s₀ = some s' →
      pastValueEvaluateThisNode s'.timeStep mNbr shifted fv da inp
          s'.initialActivationValue
        = pastValueEvaluateThisNode s.timeStep mNbr shifted fv da inp
            s.initialActivationValue
      ∧ futureValueEvaluateThisNode s'.timeStep mNbr shifted fv da inp
          s'.initialActivationValue
        = futureValueEvaluateThisNode s.timeStep mNbr shifted fv da inp
            s.initialActivationValue)
    ∧ (∀ (s s₀ s' : LSTMScalars) (base : LSTMState),
      lstmLoadFromFile 2 (lstmSaveToFile s) s₀ = some s' →
      lstmEvaluateThisNode { base with
          inputDim := s'.inputDim, outputDim := s'.outputDim,
          defaultState := s'.defaultState }
        = lstmEvaluateThisNode { base with
            inputDim := s.inputDim, outputDim := s.outputDim,
            defaultState := s.defaultState }) := by
  refine ⟨delayed_saveLoad_roundTrip, lstm_saveLoad_roundTrip, ?_, ?_⟩
  · intro ver s s₀ s' mNbr shifted fv da inp hver hload
    rw [delayed_saveLoad_roundTrip ver s s₀ hver] at hload
    have hs : s' = s := (Option.some.inj hload).symm
    subst hs
    exact ⟨rfl, rfl⟩
  · intro s s₀ s' base hload
    rw [lstm_saveLoad_roundTrip s s₀] at hload
    have hs : s' = s := (Option.some.inj hload).symm
    subst hs
    rfl

/-- Witness for claim C10 at concrete scalar states and version 2. -/
theorem claimC10_witness :
    (CNTK_MODEL_VERSION_2 ≤ 2) ∧
    delayedLoadFromFile 2 (delayedSaveToFile ⟨3, 4, 6, 9 / 2⟩) ⟨1, 1, 1, 1 / 10⟩
      = some ⟨3, 4, 6, 9 / 2⟩ ∧
    lstmLoadFromFile 2 (lstmSaveToFile ⟨2, 3, 1 / 4⟩) ⟨0, 0, 0⟩ = some ⟨2, 3, 1 / 4⟩ ∧
    (pastValueEvaluateThisNode (DelayedScalars.mk 3 4 6 (9 / 2)).timeStep 1 exC3Base
        (matZero 1 2) (matZero 1 2) (matZero 1 2)
        (DelayedScalars.mk 3 4 6 (9 / 2)).initialActivationValue
      = pastValueEvaluateThisNode 3 1 exC3Base (matZero 1 2) (matZero 1 2) (matZero 1 2)
          (9 / 2)) ∧
    lstmEvaluateThisNode { lstmUnitTestState with
        inputDim := 2, outputDim := 3, defaultState := (1 : ElemType) / 4 }
      = lstmEvaluateThisNode { lstmUnitTestState with
          inputDim := 2, outputDim := 3, defaultState := (1 : ElemType) / 4 } :=
  ⟨by decide,
    claimC10_saveLoadPreservesForward.1 2 ⟨3, 4, 6, 9 / 2⟩ ⟨1, 1, 1, 1 / 10⟩ (by decide),
    claimC10_saveLoadPreservesForward.2.1 ⟨2, 3, 1 / 4⟩ ⟨0, 0, 0⟩,
    (claimC10_saveLoadPreservesForward.2.2.1 2 ⟨3, 4, 6, 9 / 2⟩ ⟨1, 1, 1, 1 / 10⟩
      ⟨3, 4, 6, 9 / 2⟩ 1 exC3Base (matZero 1 2) (matZero 1 2) (matZero 1 2)
      (by decide) rfl).1,
    claimC10_saveLoadPreservesForward.2.2.2 ⟨2, 3, 1 / 4⟩ ⟨0, 0, 0⟩ ⟨2, 3, 1 / 4⟩
      lstmUnitTestState rfl⟩
